import Mathlib

/-!
Verification of the cost aggregation and budget-rule engine of the
aws-cost-optimization-platform repository.

The Python sources are shallowly embedded: monetary amounts (Python floats)
become `ℚ`, days become `ℤ` day indices, timestamps become `ℕ` minutes,
SQL `GROUP BY` queries become first-appearance grouping folds, `ORDER BY`
becomes `List.insertionSort`, and code that can raise (the `ZeroDivisionError`
in the trend computation) returns `Option`.
-/

/-- Two-decimal rounding, the embedding of Python's `round(x, 2)` and of the
`f"{x:.2f}"` display formatting used by the sources (on the non-midpoint
values appearing here both agree with round-to-nearest). -/
def round2 (q : ℚ) : ℚ := ((round (100 * q) : ℤ) : ℚ) / 100

lemma round2_sub_abs_le (q : ℚ) : |round2 q - q| ≤ 1 / 200 := by
  have h : round2 q - q = (((round (100 * q) : ℤ) : ℚ) - 100 * q) / 100 := by
    unfold round2; ring
  have h2 := abs_sub_round (100 * q)
  rw [abs_sub_comm] at h2
  rw [h, abs_div]
  have h100 : |(100 : ℚ)| = 100 := by norm_num
  rw [h100]
  linarith

lemma round2_mono {a b : ℚ} (h : a ≤ b) : round2 a ≤ round2 b := by
  unfold round2
  have : round (100 * a) ≤ round (100 * b) := by
    rw [round_eq, round_eq]
    exact Int.floor_le_floor (by linarith)
  have hc : ((round (100 * a) : ℤ) : ℚ) ≤ ((round (100 * b) : ℤ) : ℚ) := by
    exact_mod_cast this
  linarith

/-- `|Σ l| ≤ Σ |l|` for lists of rationals. -/
lemma list_abs_sum_le (l : List ℚ) : |l.sum| ≤ (l.map (fun x => |x|)).sum := by
  induction l with
  | nil => simp
  | cons a t ih =>
    simp only [List.sum_cons, List.map_cons]
    calc |a + t.sum| ≤ |a| + |t.sum| := abs_add _ _
      _ ≤ |a| + (t.map (fun x => |x|)).sum := by linarith

lemma list_sum_map_le_length_mul {α : Type} (l : List α) (f : α → ℚ) (c : ℚ)
    (h : ∀ x ∈ l, f x ≤ c) : (l.map f).sum ≤ l.length * c := by
  induction l with
  | nil => simp
  | cons a t ih =>
    simp only [List.map_cons, List.sum_cons, List.length_cons]
    have ha := h a (List.mem_cons_self a t)
    have ht := ih (fun x hx => h x (List.mem_cons_of_mem a hx))
    push_cast
    nlinarith

lemma list_sum_map_sub {α : Type} (l : List α) (f g : α → ℚ) :
    (l.map f).sum - (l.map g).sum = (l.map (fun x => f x - g x)).sum := by
  induction l with
  | nil => simp
  | cons a t ih =>
    simp only [List.map_cons, List.sum_cons]
    linarith

lemma list_sum_map_mul_right {α : Type} (l : List α) (f : α → ℚ) (c : ℚ) :
    (l.map (fun x => f x * c)).sum = (l.map f).sum * c := by
  induction l with
  | nil => simp
  | cons a t ih =>
    simp only [List.map_cons, List.sum_cons, ih]
    ring

/-! ### Shared grouping/counting embedding of the SQL `GROUP BY ... COUNT` queries -/

/-- One step of a first-appearance-order counting group-by: the first entry
whose key matches the row's key is incremented, otherwise a fresh key with
count 1 is appended. -/
def tallyKey {α : Type} (key : α → String) :
    List (String × ℕ) → α → List (String × ℕ)
  | [], r => [(key r, 1)]
  | e :: rest, r =>
    if e.1 = key r then (e.1, e.2 + 1) :: rest else e :: tallyKey key rest r

/-- Embedding of `db.query(col, func.count(id)).group_by(col)`. -/
def countByKey {α : Type} (key : α → String) (rows : List α) : List (String × ℕ) :=
  rows.foldl (tallyKey key) []

/-- Descending-count order used by the `order_by(desc('count'))` queries. -/
def countDesc (a b : String × ℕ) : Prop := b.2 ≤ a.2

instance : DecidableRel countDesc := fun a b =>
  (inferInstance : Decidable (b.2 ≤ a.2))

instance : IsTotal (String × ℕ) countDesc := ⟨fun a b => le_total b.2 a.2⟩

instance : IsTrans (String × ℕ) countDesc := ⟨fun _ _ _ h1 h2 => le_trans h2 h1⟩

/-! ### `budget_alert.py` — the budget alert Lambda (`check_budget_thresholds`) -/

namespace BudgetAlert

/-- The five named thresholds of the hard-coded `BUDGET_LIMITS` dict,
factored into a parameter record so that the evaluation logic can be stated
for arbitrary limits. -/
structure BudgetLimits where
  total_monthly : ℚ
  ec2_monthly : ℚ
  rds_monthly : ℚ
  s3_monthly : ℚ
  eks_monthly : ℚ
deriving DecidableEq

/-- The literal `BUDGET_LIMITS` values of `check_budget_thresholds`. -/
def BUDGET_LIMITS : BudgetLimits := ⟨50, 20, 15, 5, 25⟩

/-- The `service_mapping` dict: recognized AWS service names and the budget
threshold each maps to; unrecognized services map to `none`. -/
def serviceLimit (limits : BudgetLimits) (service : String) : Option ℚ :=
  if service = "Amazon Elastic Compute Cloud" then some limits.ec2_monthly
  else if service = "Amazon Relational Database Service" then some limits.rds_monthly
  else if service = "Amazon Simple Storage Service" then some limits.s3_monthly
  else if service = "Amazon Elastic Kubernetes Service" then some limits.eks_monthly
  else none

/-- An alert dict as built by `check_budget_thresholds` (the derived
`message` string is the displayed rendering of these fields and is not
modelled separately). -/
structure Alert where
  alert_type : String
  service : String
  current_cost : ℚ
  budget_limit : ℚ
deriving DecidableEq

/-- `check_budget_thresholds(costs)`: starts from the total-budget check and
then loops over `costs.items()` appending one alert per recognized service
whose cost strictly exceeds its limit. `costs` is the insertion-ordered
`costsByService` mapping. -/
def check_budget_thresholds (limits : BudgetLimits) (costs : List (String × ℚ)) :
    List Alert :=
  let total_cost := (costs.map Prod.snd).sum
  let init : List Alert :=
    if limits.total_monthly < total_cost then
      [⟨"BUDGET_EXCEEDED", "TOTAL", total_cost, limits.total_monthly⟩]
    else []
  costs.foldl
    (fun alerts sc =>
      match serviceLimit limits sc.1 with
      | some lim =>
          if lim < sc.2 then
            alerts ++ [⟨"SERVICE_BUDGET_EXCEEDED", sc.1, sc.2, lim⟩]
          else alerts
      | none => alerts)
    init

/-- The per-service alert a single `costsByService` entry should produce,
following the spec's words (strict `>` against the recognized service's
limit, nothing for unrecognized services). -/
def serviceAlertSpec (limits : BudgetLimits) (sc : String × ℚ) : Option Alert :=
  match serviceLimit limits sc.1 with
  | some lim =>
      if lim < sc.2 then some ⟨"SERVICE_BUDGET_EXCEEDED", sc.1, sc.2, lim⟩ else none
  | none => none

/-- `BudgetEvaluator.Evaluate` as described by the spec: one total alert
first iff the summed cost strictly exceeds the total limit, then one
per-service alert per recognized breaching service in mapping iteration
order. -/
def evaluateSpec (limits : BudgetLimits) (costs : List (String × ℚ)) : List Alert :=
  (if limits.total_monthly < (costs.map Prod.snd).sum then
    [⟨"BUDGET_EXCEEDED", "TOTAL", (costs.map Prod.snd).sum, limits.total_monthly⟩]
  else []) ++ costs.filterMap (serviceAlertSpec limits)

lemma serviceAlertSpec_none {limits : BudgetLimits} {sc : String × ℚ}
    (h : serviceLimit limits sc.1 = none) : serviceAlertSpec limits sc = none := by
  unfold serviceAlertSpec
  rw [h]

lemma serviceAlertSpec_hit {limits : BudgetLimits} {sc : String × ℚ} {lim : ℚ}
    (h : serviceLimit limits sc.1 = some lim) (hlt : lim < sc.2) :
    serviceAlertSpec limits sc = some ⟨"SERVICE_BUDGET_EXCEEDED", sc.1, sc.2, lim⟩ := by
  unfold serviceAlertSpec
  rw [h]
  exact if_pos hlt

lemma serviceAlertSpec_miss {limits : BudgetLimits} {sc : String × ℚ} {lim : ℚ}
    (h : serviceLimit limits sc.1 = some lim) (hlt : ¬ lim < sc.2) :
    serviceAlertSpec limits sc = none := by
  unfold serviceAlertSpec
  rw [h]
  exact if_neg hlt

lemma foldl_alerts_eq (limits : BudgetLimits) :
    ∀ (costs : List (String × ℚ)) (init : List Alert),
      costs.foldl
        (fun alerts sc =>
          match serviceLimit limits sc.1 with
          | some lim =>
              if lim < sc.2 then
                alerts ++ [⟨"SERVICE_BUDGET_EXCEEDED", sc.1, sc.2, lim⟩]
              else alerts
          | none => alerts)
        init
      = init ++ costs.filterMap (serviceAlertSpec limits) := by
  intro costs
  induction costs with
  | nil => intro init; simp
  | cons sc rest ih =>
    intro init
    rw [List.foldl_cons, List.filterMap_cons]
    cases h : serviceLimit limits sc.1 with
    | none => rw [serviceAlertSpec_none h]; simp only [h, ih]
    | some lim =>
      by_cases hlt : lim < sc.2
      · rw [serviceAlertSpec_hit h hlt]
        simp only [h, if_pos hlt, ih, List.filterMap_cons]
        simp [List.append_assoc]
      · rw [serviceAlertSpec_miss h hlt]
        simp only [h, if_neg hlt, ih]

lemma mem_filterMap_service_type (limits : BudgetLimits) (costs : List (String × ℚ))
    (a : Alert) (ha : a ∈ costs.filterMap (serviceAlertSpec limits)) :
    a.alert_type = "SERVICE_BUDGET_EXCEEDED" ∧ (serviceLimit limits a.service).isSome := by
  rcases List.mem_filterMap.1 ha with ⟨sc, _, hsc⟩
  cases h : serviceLimit limits sc.1 with
  | none => rw [serviceAlertSpec_none h] at hsc; exact absurd hsc (by simp)
  | some lim =>
    by_cases hlt : lim < sc.2
    · rw [serviceAlertSpec_hit h hlt] at hsc
      have := Option.some.inj hsc
      subst this
      exact ⟨rfl, by simp [h]⟩
    · rw [serviceAlertSpec_miss h hlt] at hsc
      exact absurd hsc (by simp)

end BudgetAlert

namespace BudgetAlert

/-- C1: for every `costsByService` mapping and every `BudgetLimits` with
non-negative thresholds, `check_budget_thresholds` returns exactly the
spec-described alert list: one `BUDGET_EXCEEDED` alert for service `TOTAL`
iff the summed cost strictly exceeds the total limit (placed first),
followed by one `SERVICE_BUDGET_EXCEEDED` alert for each recognized service
whose cost strictly exceeds its per-service limit, in mapping iteration
order; costs equal to the limit trigger nothing and unrecognized services
never produce a per-service alert. -/
theorem check_budget_thresholds_correct
    (limits : BudgetLimits) (costs : List (String × ℚ))
    (htot : 0 ≤ limits.total_monthly) (hec2 : 0 ≤ limits.ec2_monthly)
    (hrds : 0 ≤ limits.rds_monthly) (hs3 : 0 ≤ limits.s3_monthly)
    (heks : 0 ≤ limits.eks_monthly) :
    check_budget_thresholds limits costs = evaluateSpec limits costs ∧
    (check_budget_thresholds limits costs).countP
        (fun a => a.alert_type == "BUDGET_EXCEEDED")
      = (if limits.total_monthly < (costs.map Prod.snd).sum then 1 else 0) ∧
    (∀ a ∈ check_budget_thresholds limits costs,
      a.alert_type = "SERVICE_BUDGET_EXCEEDED" →
        (serviceLimit limits a.service).isSome) := by
  have heq : check_budget_thresholds limits costs = evaluateSpec limits costs := by
    unfold check_budget_thresholds evaluateSpec
    exact foldl_alerts_eq limits costs _
  refine ⟨heq, ?_, ?_⟩
  · rw [heq]
    unfold evaluateSpec
    rw [List.countP_append]
    have hsvc : (costs.filterMap (serviceAlertSpec limits)).countP
        (fun a => a.alert_type == "BUDGET_EXCEEDED") = 0 := by
      rw [List.countP_eq_zero]
      intro a ha
      have := (mem_filterMap_service_type limits costs a ha).1
      simp [this]
    rw [hsvc, Nat.add_zero]
    by_cases h : limits.total_monthly < (costs.map Prod.snd).sum
    · rw [if_pos h, if_pos h]
      rfl
    · rw [if_neg h, if_neg h]
      rfl
  · intro a ha _
    rw [heq] at ha
    unfold evaluateSpec at ha
    rcases List.mem_append.1 ha with h1 | h2
    · by_cases h : limits.total_monthly < (costs.map Prod.snd).sum
      · rw [if_pos h] at h1
        simp only [List.mem_singleton] at h1
        subst h1
        simp_all
      · rw [if_neg h] at h1
        simp at h1
    · exact (mem_filterMap_service_type limits costs a h2).2

/-- Witness for C1, at the spec's scenario: `costsByService = {EC2: 125.50,
RDS: 85.75}`, `limits.total = 100`, per-service limits `EC2: 100, RDS: 75`
(other thresholds at their hard-coded defaults). -/
theorem check_budget_thresholds_correct_witness :
    check_budget_thresholds ⟨100, 100, 75, 5, 25⟩
        [("Amazon Elastic Compute Cloud", 251/2),
         ("Amazon Relational Database Service", 343/4)]
      = evaluateSpec ⟨100, 100, 75, 5, 25⟩
        [("Amazon Elastic Compute Cloud", 251/2),
         ("Amazon Relational Database Service", 343/4)] ∧
    (check_budget_thresholds ⟨100, 100, 75, 5, 25⟩
        [("Amazon Elastic Compute Cloud", 251/2),
         ("Amazon Relational Database Service", 343/4)]).countP
        (fun a => a.alert_type == "BUDGET_EXCEEDED")
      = (if (100 : ℚ) <
            (([("Amazon Elastic Compute Cloud", (251 : ℚ)/2),
               ("Amazon Relational Database Service", 343/4)]).map Prod.snd).sum
         then 1 else 0) ∧
    (∀ a ∈ check_budget_thresholds ⟨100, 100, 75, 5, 25⟩
        [("Amazon Elastic Compute Cloud", 251/2),
         ("Amazon Relational Database Service", 343/4)],
      a.alert_type = "SERVICE_BUDGET_EXCEEDED" →
        (serviceLimit ⟨100, 100, 75, 5, 25⟩ a.service).isSome) :=
  check_budget_thresholds_correct ⟨100, 100, 75, 5, 25⟩
    [("Amazon Elastic Compute Cloud", 251/2),
     ("Amazon Relational Database Service", 343/4)]
    (by norm_num) (by norm_num) (by norm_num) (by norm_num) (by norm_num)

end BudgetAlert

/-! ### `cost_optimizer.py` — the cost optimizer Lambda -/

namespace CostOptimizer

/-- One Cost Explorer group: `{'Keys': [...], 'Metrics': {'BlendedCost':
{'Amount': ...}}}`. -/
structure CEGroup where
  keys : List String
  amount : ℚ
deriving DecidableEq

/-- One `ResultsByTime` entry with its `Total.BlendedCost.Amount` and its
service groups. -/
structure CEResult where
  total : ℚ
  groups : List CEGroup
deriving DecidableEq

/-- The `cost_data` response analyzed by the Lambda. -/
abbrev CostData := List CEResult

/-- The accumulation loop shared by the four `analyze_*_costs` functions:
`for result in ResultsByTime: for group in Groups: if name in Keys: cost +=
Amount`. -/
def serviceCost (d : CostData) (name : String) : ℚ :=
  (d.map (fun res =>
    ((res.groups.filter (fun g => name ∈ g.keys)).map CEGroup.amount).sum)).sum

/-- The `generate_general_recommendations` total: Σ over `ResultsByTime` of
`Total.BlendedCost.Amount`. -/
def totalBlendedCost (d : CostData) : ℚ := (d.map CEResult.total).sum

/-- A recommendation dict. The `description` string interpolates the
triggering cost into fixed prose and is display-only; it is not modelled as
a separate field. -/
structure Recommendation where
  service : String
  priority : String
  category : String
  title : String
  potential_savings : ℚ
  action : String
  impact : String
deriving DecidableEq

/-- `analyze_ec2_costs`: two recommendations when EC2 cost strictly exceeds
20, with savings 30% and 50% of the cost, two-decimal formatted. -/
def analyze_ec2_costs (d : CostData) : List Recommendation :=
  let ec2_cost := serviceCost d "Amazon Elastic Compute Cloud"
  if 20 < ec2_cost then
    [⟨"EC2", "HIGH", "RIGHT_SIZING", "Consider Right-Sizing EC2 Instances",
      round2 (ec2_cost * (3/10)),
      "Review EC2 instances and consider t2.micro or t3.micro instances",
      "MEDIUM"⟩,
     ⟨"EC2", "MEDIUM", "RESERVED_INSTANCES", "Consider Reserved Instances",
      round2 (ec2_cost * (1/2)),
      "Analyze usage patterns and consider Reserved Instances", "HIGH"⟩]
  else []

/-- `analyze_rds_costs`: one recommendation when RDS cost strictly exceeds
10, savings 40% of the cost. -/
def analyze_rds_costs (d : CostData) : List Recommendation :=
  let rds_cost := serviceCost d "Amazon Relational Database Service"
  if 10 < rds_cost then
    [⟨"RDS", "HIGH", "INSTANCE_OPTIMIZATION", "Optimize RDS Instance Size",
      round2 (rds_cost * (2/5)),
      "Review RDS instance types and consider smaller instances", "MEDIUM"⟩]
  else []

/-- `analyze_s3_costs`: one recommendation when S3 cost strictly exceeds 5,
savings 60% of the cost. -/
def analyze_s3_costs (d : CostData) : List Recommendation :=
  let s3_cost := serviceCost d "Amazon Simple Storage Service"
  if 5 < s3_cost then
    [⟨"S3", "MEDIUM", "LIFECYCLE_POLICIES", "Implement S3 Lifecycle Policies",
      round2 (s3_cost * (3/5)),
      "Set up lifecycle policies to transition data to IA and Glacier",
      "HIGH"⟩]
  else []

/-- `analyze_eks_costs`: one recommendation when EKS cost strictly exceeds
15, savings 70% of the cost. -/
def analyze_eks_costs (d : CostData) : List Recommendation :=
  let eks_cost := serviceCost d "Amazon Elastic Kubernetes Service"
  if 15 < eks_cost then
    [⟨"EKS", "HIGH", "NODE_OPTIMIZATION", "Optimize EKS Node Configuration",
      round2 (eks_cost * (7/10)),
      "Use spot instances for non-critical workloads and optimize node sizing",
      "HIGH"⟩]
  else []

/-- `generate_general_recommendations`: two global recommendations when the
total blended cost strictly exceeds 50, savings 20% and 10% of the total. -/
def generate_general_recommendations (d : CostData) : List Recommendation :=
  let total_cost := totalBlendedCost d
  if 50 < total_cost then
    [⟨"GENERAL", "HIGH", "BUDGET_MONITORING", "Set Up Budget Alerts",
      round2 (total_cost * (1/5)),
      "Configure AWS Budgets with alerts at 50%, 80%, and 100% of budget",
      "HIGH"⟩,
     ⟨"GENERAL", "MEDIUM", "COST_ALLOCATION", "Implement Cost Allocation Tags",
      round2 (total_cost * (1/10)),
      "Implement consistent tagging strategy across all resources", "MEDIUM"⟩]
  else []

/-- `generate_recommendations`: the concatenation of the four service
analyzers followed by the global recommendations, in the source's fixed
order. -/
def generate_recommendations (d : CostData) : List Recommendation :=
  analyze_ec2_costs d ++ analyze_rds_costs d ++ analyze_s3_costs d ++
    analyze_eks_costs d ++ generate_general_recommendations d

/-- C2: on the input whose only service cost is EC2 at 25.30 with
`totalCost = 25.30`, `generate_recommendations` returns exactly two
recommendations, both for EC2: right-sizing with savings 7.59 (30% of
25.30) and reserved-capacity with savings 12.65 (50% of 25.30), and no
global recommendations since 25.30 is not strictly greater than 50. -/
theorem generate_recommendations_ec2_scenario :
    generate_recommendations
        [⟨253/10, [⟨["Amazon Elastic Compute Cloud"], 253/10⟩]⟩]
      = [⟨"EC2", "HIGH", "RIGHT_SIZING", "Consider Right-Sizing EC2 Instances",
          759/100,
          "Review EC2 instances and consider t2.micro or t3.micro instances",
          "MEDIUM"⟩,
         ⟨"EC2", "MEDIUM", "RESERVED_INSTANCES", "Consider Reserved Instances",
          1265/100,
          "Analyze usage patterns and consider Reserved Instances", "HIGH"⟩] := by
  simp +decide only [generate_recommendations, analyze_ec2_costs,
    analyze_rds_costs, analyze_s3_costs, analyze_eks_costs,
    generate_general_recommendations, serviceCost, totalBlendedCost,
    List.filter, List.map, List.sum_cons, List.sum_nil]
  norm_num [round2, round_eq]

/-- C8: `generate_recommendations` is a deterministic function of the
per-service costs and the total cost alone — two cost-data inputs agreeing
on the four recognized service costs and on the total produce identical
recommendation lists — and its output is always the service-class rule
outputs in fixed table order (EC2 right-sizing then reserved, RDS, S3, EKS)
followed by the two global rules. -/
theorem generate_recommendations_deterministic (d₁ d₂ : CostData)
    (hec2 : serviceCost d₁ "Amazon Elastic Compute Cloud"
          = serviceCost d₂ "Amazon Elastic Compute Cloud")
    (hrds : serviceCost d₁ "Amazon Relational Database Service"
          = serviceCost d₂ "Amazon Relational Database Service")
    (hs3 : serviceCost d₁ "Amazon Simple Storage Service"
         = serviceCost d₂ "Amazon Simple Storage Service")
    (heks : serviceCost d₁ "Amazon Elastic Kubernetes Service"
          = serviceCost d₂ "Amazon Elastic Kubernetes Service")
    (htot : totalBlendedCost d₁ = totalBlendedCost d₂) :
    generate_recommendations d₁ = generate_recommendations d₂ ∧
    generate_recommendations d₁
      = analyze_ec2_costs d₁ ++ analyze_rds_costs d₁ ++ analyze_s3_costs d₁ ++
          analyze_eks_costs d₁ ++ generate_general_recommendations d₁ := by
  constructor
  · unfold generate_recommendations analyze_ec2_costs analyze_rds_costs
      analyze_s3_costs analyze_eks_costs generate_general_recommendations
    rw [hec2, hrds, hs3, heks, htot]
  · rfl

/-- Witness for C8: two structurally different cost-data inputs (EC2 split
across two groups vs. a single group) with equal derived costs yield the
same recommendations. -/
theorem generate_recommendations_deterministic_witness :
    generate_recommendations
        [⟨253/10, [⟨["Amazon Elastic Compute Cloud"], 10⟩,
                   ⟨["Amazon Elastic Compute Cloud"], 153/10⟩]⟩]
      = generate_recommendations
        [⟨253/10, [⟨["Amazon Elastic Compute Cloud"], 253/10⟩]⟩] ∧
    generate_recommendations
        [⟨253/10, [⟨["Amazon Elastic Compute Cloud"], 10⟩,
                   ⟨["Amazon Elastic Compute Cloud"], 153/10⟩]⟩]
      = analyze_ec2_costs
          [⟨253/10, [⟨["Amazon Elastic Compute Cloud"], 10⟩,
                     ⟨["Amazon Elastic Compute Cloud"], 153/10⟩]⟩] ++
        analyze_rds_costs
          [⟨253/10, [⟨["Amazon Elastic Compute Cloud"], 10⟩,
                     ⟨["Amazon Elastic Compute Cloud"], 153/10⟩]⟩] ++
        analyze_s3_costs
          [⟨253/10, [⟨["Amazon Elastic Compute Cloud"], 10⟩,
                     ⟨["Amazon Elastic Compute Cloud"], 153/10⟩]⟩] ++
        analyze_eks_costs
          [⟨253/10, [⟨["Amazon Elastic Compute Cloud"], 10⟩,
                     ⟨["Amazon Elastic Compute Cloud"], 153/10⟩]⟩] ++
        generate_general_recommendations
          [⟨253/10, [⟨["Amazon Elastic Compute Cloud"], 10⟩,
                     ⟨["Amazon Elastic Compute Cloud"], 153/10⟩]⟩] :=
  generate_recommendations_deterministic _ _
    (by simp +decide [serviceCost, List.filter]; norm_num)
    (by simp +decide [serviceCost, List.filter])
    (by simp +decide [serviceCost, List.filter])
    (by simp +decide [serviceCost, List.filter])
    (by norm_num [totalBlendedCost])

end CostOptimizer

/-! ### `backend/app/services/cost.py` — `CostService` -/

namespace CostService

/-- One `CostData` ORM row: the timestamp is a calendar-day index, `cost`
the per-service spend recorded for that day. -/
structure CostRow where
  day : ℤ
  service : String
  cost : ℚ
deriving DecidableEq

/-- The date-range filter `timestamp >= start_date AND timestamp <= end_date`
shared by every query, with `end_date = today` and
`start_date = today - days`. -/
def inWindow (today : ℤ) (days : ℕ) (r : CostRow) : Bool :=
  decide (today - (days : ℤ) ≤ r.day) && decide (r.day ≤ today)

/-- One step of the `group_by(CostData.service)` aggregation producing
`(service, SUM(cost), COUNT(id))` in first-appearance order. -/
def bumpService : List (String × ℚ × ℕ) → CostRow → List (String × ℚ × ℕ)
  | [], r => [(r.service, r.cost, 1)]
  | e :: rest, r =>
    if e.1 = r.service then (e.1, e.2.1 + r.cost, e.2.2 + 1) :: rest
    else e :: bumpService rest r

/-- `group_by(CostData.service)` over a set of rows. -/
def groupByService (rows : List CostRow) : List (String × ℚ × ℕ) :=
  rows.foldl bumpService []

/-- One step of the `group_by(CostData.timestamp)` aggregation producing
`(timestamp, SUM(cost))`. -/
def bumpDay : List (ℤ × ℚ) → CostRow → List (ℤ × ℚ)
  | [], r => [(r.day, r.cost)]
  | e :: rest, r =>
    if e.1 = r.day then (e.1, e.2 + r.cost) :: rest else e :: bumpDay rest r

/-- `group_by(CostData.timestamp)` over a set of rows. -/
def groupByDay (rows : List CostRow) : List (ℤ × ℚ) :=
  rows.foldl bumpDay []

/-- Ascending-by-timestamp order used by `order_by(CostData.timestamp)`. -/
def dayAsc (a b : ℤ × ℚ) : Prop := a.1 ≤ b.1

instance : DecidableRel dayAsc := fun a b =>
  (inferInstance : Decidable (a.1 ≤ b.1))

instance : IsTotal (ℤ × ℚ) dayAsc := ⟨fun a b => le_total a.1 b.1⟩

instance : IsTrans (ℤ × ℚ) dayAsc := ⟨fun _ _ _ h1 h2 => le_trans h1 h2⟩

/-- Descending-by-summed-cost order used by `order_by(desc('total_cost'))`. -/
def costDesc (a b : String × ℚ × ℕ) : Prop := b.2.1 ≤ a.2.1

instance : DecidableRel costDesc := fun a b =>
  (inferInstance : Decidable (b.2.1 ≤ a.2.1))

instance : IsTotal (String × ℚ × ℕ) costDesc := ⟨fun a b => le_total b.2.1 a.2.1⟩

instance : IsTrans (String × ℚ × ℕ) costDesc := ⟨fun _ _ _ h1 h2 => le_trans h2 h1⟩

/-- The `daily_data` list built by `get_cost_trends`: group the in-window
rows by timestamp, order ascending, and round each daily sum to 2 decimals
for display. -/
def dailyData (recs : List CostRow) (days : ℕ) (today : ℤ) : List (ℤ × ℚ) :=
  (List.insertionSort dayAsc
      (groupByDay (recs.filter (inWindow today days)))).map
    (fun e => (e.1, round2 e.2))

/-- `daily_data[-7:]`, the last 7 entries (the code reaches this split only
when at least 7 entries exist). -/
def recentWeek (l : List ℚ) : List ℚ := l.drop (l.length - 7)

/-- `daily_data[-14:-7] if len(daily_data) >= 14 else daily_data[:-7]`. -/
def previousWeek (l : List ℚ) : List ℚ :=
  if 14 ≤ l.length then (l.drop (l.length - 14)).take 7 else l.take (l.length - 7)

/-- `recent_avg = sum(recent_week) / len(recent_week)`. -/
def recentAvg (l : List ℚ) : ℚ := (recentWeek l).sum / (recentWeek l).length

/-- `previous_avg = sum(previous_week) / len(previous_week)`. -/
def previousAvg (l : List ℚ) : ℚ := (previousWeek l).sum / (previousWeek l).length

/-- The trend classification of `get_cost_trends` on a daily-cost sequence:
`none` models the unhandled `ZeroDivisionError` raised when `previous_week`
is empty (Python divides `sum(previous_week)` by `len(previous_week)`
unconditionally); otherwise the `(direction, percentage)` pair. -/
def trendCore (l : List ℚ) : Option (String × ℚ) :=
  if 7 ≤ l.length then
    if (previousWeek l).length = 0 then none
    else
      some
        ((if previousAvg l < recentAvg l then "increasing" else "decreasing"),
         if 0 < previousAvg l then
           |(recentAvg l - previousAvg l) / previousAvg l * 100|
         else 0)
  else some ("insufficient_data", 0)

/-- The dict returned by `get_cost_trends`. -/
structure TrendResult where
  daily_costs : List (ℤ × ℚ)
  trend_direction : String
  trend_percentage : ℚ
  period_days : ℕ
deriving DecidableEq

/-- `get_cost_trends(days)` evaluated at day index `today`; `none` models
the `ZeroDivisionError` escaping the function. -/
def get_cost_trends (recs : List CostRow) (days : ℕ) (today : ℤ) :
    Option TrendResult :=
  let dd := dailyData recs days today
  match trendCore (dd.map Prod.snd) with
  | some dp => some ⟨dd, dp.1, round2 dp.2, days⟩
  | none => none

/-- One `service_breakdown` entry of `get_cost_summary`. -/
structure SummaryBreakdownEntry where
  service : String
  total_cost : ℚ
  percentage : ℚ
deriving DecidableEq

/-- The dict returned by `get_cost_summary`. -/
structure CostSummary where
  total_cost : ℚ
  daily_average : ℚ
  period_days : ℕ
  trend_percentage : ℚ
  service_breakdown : List SummaryBreakdownEntry
deriving DecidableEq

/-- `get_cost_summary(days)` evaluated at day index `today`. The service
breakdown comes from a `group_by(CostData.service)` query with no
`order_by`; each percentage divides the unrounded group sum by the unrounded
period total, guarded by `total_cost > 0`. -/
def get_cost_summary (recs : List CostRow) (days : ℕ) (today : ℤ) :
    CostSummary :=
  let rows := recs.filter (inWindow today days)
  let total_cost := (rows.map CostRow.cost).sum
  let daily_avg := if 0 < days then total_cost / (days : ℚ) else 0
  let trend :=
    if 14 ≤ days then
      let recent_cost :=
        ((recs.filter (fun r =>
            decide (today - 7 ≤ r.day) && decide (r.day ≤ today))).map
          CostRow.cost).sum
      let previous_cost :=
        ((recs.filter (fun r =>
            decide (today - 14 ≤ r.day) && decide (r.day < today - 7))).map
          CostRow.cost).sum
      if 0 < previous_cost then
        (recent_cost - previous_cost) / previous_cost * 100
      else 0
    else 0
  { total_cost := round2 total_cost
    daily_average := round2 daily_avg
    period_days := days
    trend_percentage := round2 trend
    service_breakdown :=
      (groupByService rows).map
        (fun e =>
          ⟨e.1, round2 e.2.1,
           if 0 < total_cost then round2 (e.2.1 / total_cost * 100) else 0⟩) }

/-- One entry returned by `get_services_breakdown`. -/
structure BreakdownEntry where
  service : String
  total_cost : ℚ
  average_cost : ℚ
  record_count : ℕ
  percentage : ℚ
deriving DecidableEq

/-- `get_services_breakdown(days)` evaluated at day index `today`: the
per-service `(SUM, AVG, COUNT)` groups ordered by descending summed cost,
with percentages of the unrounded overall total. -/
def get_services_breakdown (recs : List CostRow) (days : ℕ) (today : ℤ) :
    List BreakdownEntry :=
  let rows := recs.filter (inWindow today days)
  let groups := List.insertionSort costDesc (groupByService rows)
  let total_cost := (groups.map (fun e => e.2.1)).sum
  groups.map
    (fun e =>
      ⟨e.1, round2 e.2.1, round2 (e.2.1 / (e.2.2 : ℚ)), e.2.2,
       if 0 < total_cost then round2 (e.2.1 / total_cost * 100) else 0⟩)

end CostService

namespace CostService

/-- C3: whenever the trend computation returns a result on a sequence of at
least 7 daily costs, the direction is `increasing` exactly when the recent
average strictly exceeds the previous average, equal averages yield
`decreasing` with percentage 0 (there is no flat direction), and on 14 flat
days at 10/day the result is `("decreasing", 0)`. -/
theorem trendCore_tie_break :
    (∀ (l : List ℚ) (dir : String) (pct : ℚ), 7 ≤ l.length →
      trendCore l = some (dir, pct) →
      ((dir = "increasing" ↔ previousAvg l < recentAvg l) ∧
       (recentAvg l = previousAvg l → dir = "decreasing" ∧ pct = 0) ∧
       (dir = "increasing" ∨ dir = "decreasing"))) ∧
    trendCore (List.replicate 14 (10 : ℚ)) = some ("decreasing", 0) := by
  constructor
  · intro l dir pct h7 heq
    unfold trendCore at heq
    rw [if_pos h7] at heq
    by_cases hpw : (previousWeek l).length = 0
    · rw [if_pos hpw] at heq
      exact absurd heq (by simp)
    · rw [if_neg hpw] at heq
      have hpair := Option.some.inj heq
      have hdir : (if previousAvg l < recentAvg l then "increasing"
          else "decreasing") = dir := congrArg Prod.fst hpair
      have hpct : (if 0 < previousAvg l then
          |(recentAvg l - previousAvg l) / previousAvg l * 100| else 0) = pct :=
        congrArg Prod.snd hpair
      by_cases hlt : previousAvg l < recentAvg l
      · rw [if_pos hlt] at hdir
        subst hdir
        exact ⟨⟨fun _ => hlt, fun _ => rfl⟩,
          fun heqavg => absurd (heqavg ▸ hlt) (lt_irrefl _), Or.inl rfl⟩
      · rw [if_neg hlt] at hdir
        subst hdir
        refine ⟨⟨fun h => absurd h (by decide), fun h => absurd h hlt⟩,
          fun heqavg => ⟨rfl, ?_⟩, Or.inr rfl⟩
        rw [← hpct]
        by_cases h0 : 0 < previousAvg l
        · rw [if_pos h0, heqavg]
          simp
        · rw [if_neg h0]
  · have hlen : (List.replicate 14 (10 : ℚ)).length = 14 := by simp
    have hprev : previousWeek (List.replicate 14 (10 : ℚ))
        = List.replicate 7 (10 : ℚ) := by
      unfold previousWeek
      rw [hlen]
      norm_num [List.drop_replicate, List.take_replicate]
    have hrec : recentWeek (List.replicate 14 (10 : ℚ))
        = List.replicate 7 (10 : ℚ) := by
      unfold recentWeek
      rw [hlen]
      norm_num [List.drop_replicate]
    have hpavg : previousAvg (List.replicate 14 (10 : ℚ)) = 10 := by
      unfold previousAvg
      rw [hprev]
      norm_num [List.sum_replicate]
    have hravg : recentAvg (List.replicate 14 (10 : ℚ)) = 10 := by
      unfold recentAvg
      rw [hrec]
      norm_num [List.sum_replicate]
    unfold trendCore
    rw [if_pos (by rw [hlen]; norm_num), if_neg (by rw [hprev]; norm_num),
      hpavg, hravg]
    norm_num

/-- Witness for C3, at the 14-flat-days input. -/
theorem trendCore_tie_break_witness :
    (("decreasing" : String) = "increasing" ↔
      previousAvg (List.replicate 14 (10 : ℚ)) <
        recentAvg (List.replicate 14 (10 : ℚ))) ∧
    (recentAvg (List.replicate 14 (10 : ℚ)) =
        previousAvg (List.replicate 14 (10 : ℚ)) →
      ("decreasing" : String) = "decreasing" ∧ (0 : ℚ) = 0) ∧
    (("decreasing" : String) = "increasing" ∨
      ("decreasing" : String) = "decreasing") :=
  trendCore_tie_break.1 (List.replicate 14 (10 : ℚ)) "decreasing" 0
    (by norm_num) trendCore_tie_break.2

/-- C5 (code bug): with exactly 7 daily entries the split leaves
`previous_week = daily_data[:-7] = []`, so `sum(previous_week) /
len(previous_week)` raises `ZeroDivisionError` (modelled as `none`) instead
of returning a `TrendResult`: here on 7 rows of cost 10 at days 0..6 with a
7-day window. -/
theorem get_cost_trends_seven_entries_diverges :
    get_cost_trends
        [⟨0, "EC2", 10⟩, ⟨1, "EC2", 10⟩, ⟨2, "EC2", 10⟩, ⟨3, "EC2", 10⟩,
         ⟨4, "EC2", 10⟩, ⟨5, "EC2", 10⟩, ⟨6, "EC2", 10⟩] 7 6 = none ∧
    trendCore (List.replicate 7 (10 : ℚ)) = none := by
  constructor
  · simp +decide only [get_cost_trends, dailyData, inWindow, List.filter,
      groupByDay, List.foldl, bumpDay, List.insertionSort, List.orderedInsert,
      dayAsc]
  · norm_num [trendCore, previousWeek]

end CostService

namespace CostService

lemma mem_keys_bumpDay :
    ∀ (acc : List (ℤ × ℚ)) (r : CostRow) (d : ℤ),
      (d ∈ (bumpDay acc r).map Prod.fst ↔ d ∈ acc.map Prod.fst ∨ d = r.day) := by
  intro acc
  induction acc with
  | nil => intro r d; simp [bumpDay]
  | cons e rest ih =>
    intro r d
    unfold bumpDay
    by_cases h : e.1 = r.day
    · rw [if_pos h]
      simp only [List.map_cons, List.mem_cons]
      constructor
      · rintro (h1 | h2)
        · exact Or.inl (Or.inl h1)
        · exact Or.inl (Or.inr h2)
      · rintro ((h1 | h2) | h3)
        · exact Or.inl h1
        · exact Or.inr h2
        · exact Or.inl (h ▸ h3)
    · rw [if_neg h]
      simp only [List.map_cons, List.mem_cons]
      rw [ih]
      tauto

lemma mem_keys_foldl_bumpDay :
    ∀ (rows : List CostRow) (acc : List (ℤ × ℚ)) (d : ℤ),
      (d ∈ (rows.foldl bumpDay acc).map Prod.fst ↔
        d ∈ acc.map Prod.fst ∨ d ∈ rows.map CostRow.day) := by
  intro rows
  induction rows with
  | nil => intro acc d; simp
  | cons r rest ih =>
    intro acc d
    rw [List.foldl_cons, ih, mem_keys_bumpDay]
    simp only [List.map_cons, List.mem_cons]
    tauto

/-- C4 (corrected): the ascending daily-cost sequence built by
`get_cost_trends` has one entry exactly for each calendar day on which some
in-window record exists; days without records are omitted, not filled with
cost 0, so the sequence can be shorter than the calendar window. -/
theorem dailyData_mem_iff (recs : List CostRow) (days : ℕ) (today : ℤ)
    (d : ℤ) :
    d ∈ (dailyData recs days today).map Prod.fst ↔
      d ∈ (recs.filter (inWindow today days)).map CostRow.day := by
  unfold dailyData
  rw [List.map_map]
  have hfst : (Prod.fst ∘ fun e : ℤ × ℚ => (e.1, round2 e.2)) = Prod.fst := by
    funext e
    rfl
  rw [hfst]
  have hperm : List.Perm
      ((List.insertionSort dayAsc
        (groupByDay (recs.filter (inWindow today days)))).map Prod.fst)
      ((groupByDay (recs.filter (inWindow today days))).map Prod.fst) :=
    (List.perm_insertionSort dayAsc _).map Prod.fst
  rw [hperm.mem_iff]
  unfold groupByDay
  rw [mem_keys_foldl_bumpDay]
  simp

/-- C4 counterexample: records on days 0 and 2 inside the 4-calendar-day
window `[0, 3]` yield a 2-entry sequence with no entry for day 1 (and none
for day 3), not a 4-entry calendar-exact sequence with cost-0 fillers. -/
theorem dailyData_gap_counterexample :
    dailyData [⟨0, "EC2", 5⟩, ⟨2, "EC2", 7⟩] 3 3 = [(0, 5), (2, 7)] ∧
    (dailyData [⟨0, "EC2", 5⟩, ⟨2, "EC2", 7⟩] 3 3).length = 2 ∧
    ¬ ((1 : ℤ) ∈ (dailyData [⟨0, "EC2", 5⟩, ⟨2, "EC2", 7⟩] 3 3).map Prod.fst) ∧
    (2 : ℕ) ≠ 4 := by
  have heval : dailyData [⟨0, "EC2", 5⟩, ⟨2, "EC2", 7⟩] 3 3 = [(0, 5), (2, 7)] := by
    simp +decide only [dailyData, inWindow, List.filter, groupByDay,
      List.foldl, bumpDay, List.insertionSort, List.orderedInsert, dayAsc,
      List.map]
    norm_num [round2, round_eq]
  refine ⟨heval, by rw [heval]; rfl, by rw [heval]; decide, by decide⟩

end CostService

namespace CostService

lemma bumpService_sum :
    ∀ (acc : List (String × ℚ × ℕ)) (r : CostRow),
      ((bumpService acc r).map (fun e => e.2.1)).sum
        = (acc.map (fun e => e.2.1)).sum + r.cost := by
  intro acc
  induction acc with
  | nil => intro r; simp [bumpService]
  | cons e rest ih =>
    intro r
    unfold bumpService
    by_cases h : e.1 = r.service
    · rw [if_pos h]
      simp only [List.map_cons, List.sum_cons]
      ring
    · rw [if_neg h]
      simp only [List.map_cons, List.sum_cons, ih r]
      ring

lemma foldl_bumpService_sum :
    ∀ (rows : List CostRow) (acc : List (String × ℚ × ℕ)),
      (((rows.foldl bumpService acc)).map (fun e => e.2.1)).sum
        = (acc.map (fun e => e.2.1)).sum + (rows.map CostRow.cost).sum := by
  intro rows
  induction rows with
  | nil => intro acc; simp
  | cons r rest ih =>
    intro acc
    rw [List.foldl_cons, ih, bumpService_sum]
    simp only [List.map_cons, List.sum_cons]
    ring

/-- The grouped per-service sums add back up to the period total. -/
lemma groupByService_sum (rows : List CostRow) :
    ((groupByService rows).map (fun e => e.2.1)).sum
      = (rows.map CostRow.cost).sum := by
  unfold groupByService
  rw [foldl_bumpService_sum]
  simp

/-- C6 (corrected): when the period total is 0 every breakdown percentage is
exactly 0 (the division is skipped); when the total is strictly positive the
displayed percentages sum to 100 within `n / 200` where `n` is the number of
breakdown entries — each entry is its exact ratio rounded to 2 decimals, so
each contributes at most 0.005 of rounding error; the deviation is within
0.1 only when there are at most 20 services. -/
theorem get_cost_summary_percentages (recs : List CostRow) (days : ℕ)
    (today : ℤ) :
    (((recs.filter (inWindow today days)).map CostRow.cost).sum = 0 →
      ∀ e ∈ (get_cost_summary recs days today).service_breakdown,
        e.percentage = 0) ∧
    (0 < ((recs.filter (inWindow today days)).map CostRow.cost).sum →
      |(((get_cost_summary recs days today).service_breakdown.map
            SummaryBreakdownEntry.percentage).sum) - 100| ≤
        (((get_cost_summary recs days today).service_breakdown.length : ℚ))
          / 200) := by
  have hbd : (get_cost_summary recs days today).service_breakdown
      = (groupByService (recs.filter (inWindow today days))).map
          (fun e =>
            (⟨e.1, round2 e.2.1,
              if 0 < ((recs.filter (inWindow today days)).map CostRow.cost).sum
              then round2 (e.2.1 /
                ((recs.filter (inWindow today days)).map CostRow.cost).sum * 100)
              else 0⟩ : SummaryBreakdownEntry)) := rfl
  constructor
  · intro hT0 e he
    rw [hbd] at he
    rcases List.mem_map.1 he with ⟨g, _, rfl⟩
    simp only [hT0]
    norm_num
  · intro hT
    set rows := recs.filter (inWindow today days) with hrows
    set T := (rows.map CostRow.cost).sum with hTdef
    have hmap : (get_cost_summary recs days today).service_breakdown.map
        SummaryBreakdownEntry.percentage
        = (groupByService rows).map (fun g => round2 (g.2.1 / T * 100)) := by
      rw [hbd, List.map_map]
      apply List.map_congr_left
      intro g _
      simp only [Function.comp_apply, if_pos hT]
    have hgsum : ((groupByService rows).map (fun e => e.2.1)).sum = T :=
      groupByService_sum rows
    have hexact : ((groupByService rows).map (fun e => e.2.1 / T * 100)).sum
        = 100 := by
      have h1 : ((groupByService rows).map (fun e => e.2.1 / T * 100)).sum
          = ((groupByService rows).map (fun e => e.2.1 * (100 / T))).sum := by
        apply congrArg List.sum
        apply List.map_congr_left
        intro g _
        ring
      rw [h1, list_sum_map_mul_right, hgsum]
      field_simp
    have hsub : (((groupByService rows).map
          (fun g => round2 (g.2.1 / T * 100))).sum) - 100
        = ((groupByService rows).map
            (fun g => round2 (g.2.1 / T * 100) - g.2.1 / T * 100)).sum := by
      have key : (((groupByService rows).map
            (fun g => round2 (g.2.1 / T * 100))).sum) - 100
          = (((groupByService rows).map
              (fun g => round2 (g.2.1 / T * 100))).sum)
            - ((groupByService rows).map (fun e => e.2.1 / T * 100)).sum := by
        rw [hexact]
      rw [key]
      exact list_sum_map_sub _ _ _
    have hlen : (get_cost_summary recs days today).service_breakdown.length
        = (groupByService rows).length := by
      rw [hbd, List.length_map]
    rw [hmap, hsub, hlen]
    calc |((groupByService rows).map
          (fun g => round2 (g.2.1 / T * 100) - g.2.1 / T * 100)).sum|
        ≤ (((groupByService rows).map
            (fun g => round2 (g.2.1 / T * 100) - g.2.1 / T * 100)).map
              (fun x => |x|)).sum := list_abs_sum_le _
      _ ≤ ((groupByService rows).length : ℚ) * (1 / 200) := by
          rw [List.map_map]
          apply list_sum_map_le_length_mul
          intro g _
          exact round2_sub_abs_le _
      _ = ((groupByService rows).length : ℚ) / 200 := by ring

/-- Witness for C6's amended bound: the zero-total case on an empty record
set and the positive-total case on a single record. -/
theorem get_cost_summary_percentages_witness :
    (∀ e ∈ (get_cost_summary ([] : List CostRow) 30 0).service_breakdown,
      e.percentage = 0) ∧
    |(((get_cost_summary [(⟨0, "A", 1⟩ : CostRow)] 30 0).service_breakdown.map
          SummaryBreakdownEntry.percentage).sum) - 100| ≤
      (((get_cost_summary [(⟨0, "A", 1⟩ : CostRow)] 30 0).service_breakdown.length
          : ℚ)) / 200 :=
  ⟨(get_cost_summary_percentages ([] : List CostRow) 30 0).1 (by simp),
   (get_cost_summary_percentages [(⟨0, "A", 1⟩ : CostRow)] 30 0).2
     (by simp +decide [inWindow, List.filter])⟩

end CostService

namespace CostService

/-- The 23-service record set refuting the within-0.1 percentage-sum bound:
total 1,000,000 with 18 services at 43,452 (exact share 4.3452%, displayed
4.35), four at 43,453 (4.3453%, displayed 4.35) and one at 44,052 (4.4052%,
displayed 4.41). -/
def wideBreakdownRecs : List CostRow :=
  [⟨0, "S01", 43452⟩,
       ⟨0, "S02", 43452⟩,
       ⟨0, "S03", 43452⟩,
       ⟨0, "S04", 43452⟩,
       ⟨0, "S05", 43452⟩,
       ⟨0, "S06", 43452⟩,
       ⟨0, "S07", 43452⟩,
       ⟨0, "S08", 43452⟩,
       ⟨0, "S09", 43452⟩,
       ⟨0, "S10", 43452⟩,
       ⟨0, "S11", 43452⟩,
       ⟨0, "S12", 43452⟩,
       ⟨0, "S13", 43452⟩,
       ⟨0, "S14", 43452⟩,
       ⟨0, "S15", 43452⟩,
       ⟨0, "S16", 43452⟩,
       ⟨0, "S17", 43452⟩,
       ⟨0, "S18", 43452⟩,
       ⟨0, "S19", 43453⟩,
       ⟨0, "S20", 43453⟩,
       ⟨0, "S21", 43453⟩,
       ⟨0, "S22", 43453⟩,
       ⟨0, "S23", 44052⟩]

/-- C6 counterexample: on `wideBreakdownRecs` the period total is strictly
positive, yet the displayed percentages sum to 100.11, outside the claimed
0.1 tolerance — each of the 23 entries rounds up by almost 0.005. -/
theorem get_cost_summary_percentages_counterexample :
    0 < ((wideBreakdownRecs.filter (inWindow 0 30)).map CostRow.cost).sum ∧
    ((get_cost_summary wideBreakdownRecs 30 0).service_breakdown.map
        SummaryBreakdownEntry.percentage).sum = 10011/100 ∧
    ¬ (|(10011/100 : ℚ) - 100| ≤ 1/10) := by
  refine ⟨?_, ?_, by norm_num [abs_le]⟩
  · simp +decide only [wideBreakdownRecs, inWindow, List.filter, List.map]
    norm_num
  · simp +decide only [wideBreakdownRecs, get_cost_summary, inWindow,
      List.filter, groupByService, List.foldl, bumpService, List.map,
      List.sum_cons, List.sum_nil]
    norm_num [round2, round_eq]

end CostService

namespace CostService

/-- C7 counterexample: the `service_breakdown` inside `get_cost_summary` is
produced by a `group_by` with no `order_by`, so for rows whose grouping
order puts the cheaper service "A" before the dearer "B" it is not
descending by cost. -/
theorem get_cost_summary_breakdown_not_sorted :
    ((get_cost_summary [⟨0, "A", 1⟩, ⟨0, "B", 5⟩] 30 0).service_breakdown.map
        SummaryBreakdownEntry.total_cost) = [1, 5] ∧
    ¬ List.Pairwise (fun a b : ℚ => b ≤ a)
        ((get_cost_summary [⟨0, "A", 1⟩, ⟨0, "B", 5⟩] 30 0).service_breakdown.map
          SummaryBreakdownEntry.total_cost) := by
  have heval : ((get_cost_summary [⟨0, "A", 1⟩, ⟨0, "B", 5⟩] 30 0).service_breakdown.map
      SummaryBreakdownEntry.total_cost) = [1, 5] := by
    simp +decide only [get_cost_summary, inWindow, List.filter,
      groupByService, List.foldl, bumpService, List.map, List.sum_cons,
      List.sum_nil]
    norm_num [round2, round_eq]
  refine ⟨heval, ?_⟩
  rw [heval]
  intro hpair
  have h51 : (5 : ℚ) ≤ 1 := List.rel_of_pairwise_cons hpair (by simp)
  norm_num at h51

/-- C7 (corrected): the standalone `get_services_breakdown` list is ordered
descending by each entry's total cost (it carries an
`order_by(desc('total_cost'))`), while the `service_breakdown` inside
`get_cost_summary` is just the grouping order of its un-ordered `group_by`
query. -/
theorem get_services_breakdown_sorted (recs : List CostRow) (days : ℕ)
    (today : ℤ) :
    List.Pairwise (fun a b => b.total_cost ≤ a.total_cost)
      (get_services_breakdown recs days today) ∧
    (get_cost_summary recs days today).service_breakdown.map
        SummaryBreakdownEntry.service
      = (groupByService (recs.filter (inWindow today days))).map Prod.fst := by
  constructor
  · have hsorted : List.Pairwise costDesc
        (List.insertionSort costDesc
          (groupByService (recs.filter (inWindow today days)))) :=
      List.sorted_insertionSort costDesc _
    unfold get_services_breakdown
    refine List.Pairwise.map _ ?_ hsorted
    intro a b hab
    exact round2_mono hab
  · unfold get_cost_summary
    rw [List.map_map]
    rfl

end CostService

/-! ### `backend/app/services/budget.py` — `BudgetService` -/

namespace BudgetService

/-- One `BudgetAlert` ORM row; `created_at` is in minutes since the epoch
(1440 minutes to a day). -/
structure AlertRow where
  created_at : ℕ
  alert_type : String
  service : String
deriving DecidableEq

/-- `datetime.now().replace(hour=0, minute=0, second=0, microsecond=0)`:
the start (midnight) of the day containing `t`. -/
def midnightOf (t : ℕ) : ℕ := t - t % 1440

/-- The dict returned by `get_budget_summary`. -/
structure BudgetSummary where
  total_alerts : ℕ
  recent_alerts : ℕ
  alerts_by_type : List (String × ℕ)
  alerts_by_service : List (String × ℕ)
deriving DecidableEq

/-- `get_budget_summary()` evaluated with the stored alerts and the query
time `now` (minutes): total count, the `created_at >= midnight-of-today`
count, counts grouped by type, and counts grouped by service ordered by
descending count. -/
def get_budget_summary (alerts : List AlertRow) (now : ℕ) : BudgetSummary :=
  { total_alerts := alerts.length
    recent_alerts :=
      (alerts.filter (fun a => midnightOf now ≤ a.created_at)).length
    alerts_by_type := countByKey AlertRow.alert_type alerts
    alerts_by_service :=
      List.insertionSort countDesc (countByKey AlertRow.service alerts) }

/-- C9 counterexample: an alert created at minute 660 (day 0, 11:00) is
within the trailing 24 hours of a query at minute 2040 (day 1, 10:00), yet
`get_budget_summary` does not count it, because the filter uses midnight of
the query day (minute 1440), not `now - 24h` (minute 600). -/
theorem recent_alerts_not_trailing_24h :
    (get_budget_summary [⟨660, "BUDGET_EXCEEDED", "TOTAL"⟩] 2040).recent_alerts
      = 0 ∧
    (([(⟨660, "BUDGET_EXCEEDED", "TOTAL"⟩ : AlertRow)]).filter
        (fun a => 2040 - 1440 ≤ a.created_at)).length = 1 ∧
    (0 : ℕ) ≠ 1 := by
  refine ⟨?_, by decide, by decide⟩
  decide

/-- C9 (corrected): the recent-alert count returned by `get_budget_summary`
equals the number of alerts created at or after midnight of the query day,
not the number created within the trailing 24 hours. -/
theorem recent_alerts_since_midnight (alerts : List AlertRow) (now : ℕ) :
    (get_budget_summary alerts now).recent_alerts
      = (alerts.filter (fun a => now - now % 1440 ≤ a.created_at)).length ∧
    (get_budget_summary alerts now).total_alerts = alerts.length := by
  exact ⟨rfl, rfl⟩

end BudgetService

/-! ### `backend/app/services/optimization.py` — `OptimizationService` -/

namespace OptimizationService

/-- One `OptimizationRecommendation` ORM row (the fields the summary
reads). -/
structure RecRow where
  service : String
  priority : String
  category : String
  potential_savings : String
deriving DecidableEq

/-- `int(digit-string)` accumulation used by decimal parsing. -/
def natOfDigits (l : List Char) : ℕ :=
  l.foldl (fun a c => 10 * a + (c.toNat - 48)) 0

/-- The decimal fragment of Python `float(str)`: optional sign, digits, an
optional single decimal point, at least one digit overall (the exponent,
infinity and NaN forms never produced by this code base are not modelled).
`none` models the `ValueError` caught by the summary loop. -/
def parseFloat? (cs : List Char) : Option ℚ :=
  let signed : ℚ × List Char :=
    match cs with
    | '-' :: r => (-1, r)
    | '+' :: r => (1, r)
    | r => (1, r)
  let intPart := signed.2.takeWhile Char.isDigit
  let rest := signed.2.dropWhile Char.isDigit
  match rest with
  | [] => if intPart.isEmpty then none else some (signed.1 * natOfDigits intPart)
  | '.' :: frac =>
      if frac.all Char.isDigit && !(intPart.isEmpty && frac.isEmpty) then
        some (signed.1 *
          ((natOfDigits intPart : ℚ) + (natOfDigits frac : ℚ) / 10 ^ frac.length))
      else none
  | _ => none

/-- `float(s.replace('$', '').replace(',', ''))` as an `Option`: strip every
dollar sign and comma, then parse the remaining decimal string. -/
def parseCurrency (s : String) : Option ℚ :=
  parseFloat? (s.data.filter (fun c => !(c == '$' || c == ',')))

/-- The dict returned by `get_optimization_summary`. -/
structure OptSummary where
  total_recommendations : ℕ
  total_potential_savings : ℚ
  by_priority : List (String × ℕ)
  by_service : List (String × ℕ)
  by_category : List (String × ℕ)
deriving DecidableEq

/-- `get_optimization_summary()`: counts, plus the savings total accumulated
by the `try/except (ValueError, AttributeError): continue` loop over every
stored recommendation, displayed with two decimals. -/
def get_optimization_summary (recs : List RecRow) : OptSummary :=
  { total_recommendations := recs.length
    total_potential_savings :=
      round2 (recs.foldl
        (fun acc r =>
          match parseCurrency r.potential_savings with
          | some v => acc + v
          | none => acc)
        0)
    by_priority := countByKey RecRow.priority recs
    by_service := List.insertionSort countDesc (countByKey RecRow.service recs)
    by_category :=
      List.insertionSort countDesc (countByKey RecRow.category recs) }

lemma foldl_savings_eq (recs : List RecRow) :
    ∀ acc : ℚ,
      recs.foldl
          (fun acc r =>
            match parseCurrency r.potential_savings with
            | some v => acc + v
            | none => acc)
          acc
        = acc + ((recs.filterMap (fun r => parseCurrency r.potential_savings)).sum) := by
  induction recs with
  | nil => intro acc; simp
  | cons r rest ih =>
    intro acc
    rw [List.foldl_cons, List.filterMap_cons]
    cases h : parseCurrency r.potential_savings with
    | none => simp only [h, ih]
    | some v =>
      simp only [h, ih, List.sum_cons]
      ring

/-- C10: the total potential savings figure of `get_optimization_summary`
is the sum of the numeric values parsed from the currency-formatted
`potential_savings` strings of exactly those recommendations whose string
parses; non-parsing entries are skipped (the caught `ValueError`) and the
operation always returns. The figure is displayed rounded to two
decimals. -/
theorem get_optimization_summary_total_savings (recs : List RecRow) :
    (get_optimization_summary recs).total_potential_savings
      = round2
          ((recs.filterMap (fun r => parseCurrency r.potential_savings)).sum) := by
  unfold get_optimization_summary
  rw [foldl_savings_eq]
  rw [zero_add]

end OptimizationService
